import Mathlib

/-!
Verification of the CSV ingestion core of `csv-schema-evolution`
(`backend/app/services/csv_handler.py`, `dialect_detector.py`, `transposer.py`,
`backend/app/utils/sanitize.py`).

The Python code is shallowly embedded as executable Lean definitions:

* Python `str` is `String`; slicing `content[:n]` is `strTake n content`.
* Python's `str.strip()` is `pyStrip` (ASCII whitespace model).
* Python's `csv.reader` (the C tokenizer of CPython, for dialects with
  `doublequote=True`, `escapechar=None`, `quoting=QUOTE_MINIMAL`) is the state
  machine `pyCsvParse`; it returns the rows yielded before any structural
  `csv.Error` together with a flag saying whether such an error was raised.
* Python `float` arithmetic is modelled by exact fraction arithmetic
  (`Frac`); where the rounding itself is observable — the layout
  classifier's threshold comparisons — the correctly rounded IEEE-754
  binary64 value is computed exactly (`flDouble`).  The regular-expression
  type patterns are modelled by a small regular-expression AST `RE` with
  full-match semantics.
* A Python `OrderedDict`/`dict` of strings is an insertion-ordered association
  list `Rec` updated through `upsert` (update in place, append if new).
* A raised-and-caught exception is modelled by `Option` (`patternScoreOpt`)
  or by the error flag of `pyCsvParse`.
-/

set_option maxRecDepth 100000

/-- ASCII model of the whitespace class used by Python's `str.strip()`
and by the regex class `\s`. -/
def isPyWs (c : Char) : Bool :=
  c = ' ' ∨ c = '\t' ∨ c = '\n' ∨ c = '\r' ∨ c = '\x0b' ∨ c = '\x0c'

/-- Strip leading and trailing whitespace from a list of characters
(model of Python `str.strip()` at the character-list level). -/
def stripL (l : List Char) : List Char :=
  ((l.dropWhile isPyWs).reverse.dropWhile isPyWs).reverse

/-- Model of Python `str.strip()`. -/
def pyStrip (s : String) : String := ⟨stripL s.data⟩

/-- Python `content[:n]` (slice by code points). -/
def strTake (n : Nat) (s : String) : String := ⟨s.data.take n⟩

/-- `clean_value.startswith(("=", "+", "-", "@"))` from `sanitize.py`. -/
def startsGuard (s : String) : Bool :=
  match s.data with
  | [] => false
  | c :: _ => c = '=' ∨ c = '+' ∨ c = '-' ∨ c = '@'

/-- `sanitize_cell_value` from `backend/app/utils/sanitize.py`:
empty input returns empty text, otherwise the value is stripped and, if it
starts with one of `=`, `+`, `-`, `@`, prefixed with a single quote. -/
def sanitize_cell_value (value : String) : String :=
  if value = "" then ""
  else
    let clean := pyStrip value
    if startsGuard clean then "'" ++ clean else clean

/-- A record: an insertion-ordered mapping from field names to cell values
(Python `dict` / `OrderedDict` of strings). -/
abbrev Rec := List (String × String)

/-- `d[k] = v` on an insertion-ordered string dictionary: update the value in
place when the key is present, append the pair otherwise. -/
def upsert (r : Rec) (k v : String) : Rec :=
  if r.any (fun p => p.1 == k) then
    r.map (fun p => if p.1 == k then (k, v) else p)
  else r ++ [(k, v)]

/-- `k in d` for a record. -/
def recHasKey (r : Rec) (k : String) : Bool := r.any (fun p => p.1 == k)

/-- `d.get(k)` for a record. -/
def recFind (r : Rec) (k : String) : Option String :=
  (r.find? (fun p => p.1 == k)).map (fun p => p.2)

/-- A CSV dialect: the (delimiter, quote character) pair.  The Python code
carries `csv.Dialect` objects registered with exactly these two fields. -/
structure Dialect where
  delimiter : Char
  quotechar : Char
deriving DecidableEq

/-- Parser states of CPython's `_csv` reader state machine. -/
inductive CsvState where
  | startRecord
  | startField
  | inField
  | inQuoted
  | quoteInQuoted
  | eatCrnl
deriving DecidableEq

/-- Accumulator of the CSV reader: rows emitted so far, fields of the current
record, characters of the current field, parser state, and whether a
structural `csv.Error` has been raised. -/
structure CsvAcc where
  rows : List (List String)
  fields : List String
  field : List Char
  st : CsvState
  err : Bool

/-- `parse_save_field` of the C reader. -/
def saveField (acc : CsvAcc) : CsvAcc :=
  { acc with fields := acc.fields ++ [⟨acc.field⟩], field := [] }

/-- Emit the completed record and return to `START_RECORD`. -/
def emitRow (acc : CsvAcc) : CsvAcc :=
  { acc with rows := acc.rows ++ [acc.fields], fields := [], field := [],
             st := .startRecord }

/-- `START_FIELD` handling of a character (also reached by fall-through from
`START_RECORD`). -/
def startFieldChar (d : Dialect) (acc : CsvAcc) (c : Char) : CsvAcc :=
  if c = '\n' ∨ c = '\r' then { saveField acc with st := .eatCrnl }
  else if c = d.quotechar then { acc with st := .inQuoted }
  else if c = d.delimiter then saveField acc
  else { acc with field := acc.field ++ [c], st := .inField }

/-- One step of CPython's `_csv` reader state machine.  `some c` is an input
character; `none` is the end-of-line marker processed after each source line
(the `'\0'` of the C implementation).  Once an error is recorded the rest of
the input is ignored, as the Python iterator has raised at that point. -/
def csvStep (d : Dialect) (strict : Bool) (acc : CsvAcc) (tok : Option Char) :
    CsvAcc :=
  if acc.err then acc
  else
    match tok with
    | some c =>
      match acc.st with
      | .startRecord =>
        if c = '\n' ∨ c = '\r' then { acc with st := .eatCrnl }
        else startFieldChar d { acc with st := .startField } c
      | .startField => startFieldChar d acc c
      | .inField =>
        if c = '\n' ∨ c = '\r' then { saveField acc with st := .eatCrnl }
        else if c = d.delimiter then { saveField acc with st := .startField }
        else { acc with field := acc.field ++ [c] }
      | .inQuoted =>
        if c = d.quotechar then { acc with st := .quoteInQuoted }
        else { acc with field := acc.field ++ [c] }
      | .quoteInQuoted =>
        if c = d.quotechar then
          { acc with field := acc.field ++ [c], st := .inQuoted }
        else if c = d.delimiter then { saveField acc with st := .startField }
        else if c = '\n' ∨ c = '\r' then { saveField acc with st := .eatCrnl }
        else if strict then { acc with err := true }
        else { acc with field := acc.field ++ [c], st := .inField }
      | .eatCrnl =>
        if c = '\n' ∨ c = '\r' then acc
        else { acc with err := true }
    | none =>
      match acc.st with
      | .startRecord => acc
      | .startField => emitRow (saveField acc)
      | .inField => emitRow (saveField acc)
      | .inQuoted => acc
      | .quoteInQuoted => emitRow (saveField acc)
      | .eatCrnl => emitRow acc

/-- Token stream of a source string: each character, with an end-of-line
marker after every `'\n'` and at the end of a final unterminated line
(`StringIO` hands the reader one line at a time, and the reader processes a
`'\0'` after each line). -/
def csvTokens (content : String) : List (Option Char) :=
  (content.data.flatMap (fun c => if c = '\n' then [some c, none] else [some c]))
    ++ (if content.data ≠ [] ∧ content.data.getLast? ≠ some '\n'
        then [none] else [])

/-- End-of-input handling: a dangling quoted field is an error under
`strict=True` ("unexpected end of data") and is emitted as a final record
otherwise. -/
def csvFinish (strict : Bool) (acc : CsvAcc) : CsvAcc :=
  if acc.err then acc
  else if acc.st = .inQuoted then
    if strict then { acc with err := true } else emitRow (saveField acc)
  else acc

/-- Model of `list(csv.reader(StringIO(content), dialect))`: the rows yielded
before any structural error, and whether such an error was raised. -/
def pyCsvParse (d : Dialect) (strict : Bool) (content : String) :
    List (List String) × Bool :=
  let acc := csvFinish strict
    (csvTokens content |>.foldl (csvStep d strict)
      ⟨[], [], [], .startRecord, false⟩)
  (acc.rows, acc.err)

/-! ### Regular-expression type patterns of the dialect detector -/

/-- A regular expression over character classes, rich enough for the nine
`TYPE_PATTERNS` of `dialect_detector.py`.  Repetition operators apply to a
character class, as they do in every one of the source patterns. -/
inductive RE where
  | cls : (Char → Bool) → RE
  | lit : List Char → RE
  | seq : RE → RE → RE
  | alt : RE → RE → RE
  | opt : RE → RE
  | many0 : (Char → Bool) → RE
  | many1 : (Char → Bool) → RE
  | rep : (Char → Bool) → Nat → Nat → RE

/-- Kleene star of a character class, in continuation style: some number of
`p`-characters is consumed and the continuation accepts the rest. -/
def starK (p : Char → Bool) (k : List Char → Bool) : List Char → Bool
  | [] => k []
  | c :: r => k (c :: r) || (p c && starK p k r)

/-- At most `n` further `p`-characters are consumed. -/
def repUpToK (p : Char → Bool) (k : List Char → Bool) : Nat → List Char → Bool
  | 0, s => k s
  | _ + 1, [] => k []
  | n + 1, c :: r => k (c :: r) || (p c && repUpToK p k n r)

/-- Exactly `n` `p`-characters are consumed. -/
def repExactK (p : Char → Bool) (k : List Char → Bool) : Nat → List Char → Bool
  | 0, s => k s
  | _ + 1, [] => false
  | n + 1, c :: r => p c && repExactK p k n r

/-- A literal character sequence is consumed. -/
def litK (k : List Char → Bool) : List Char → List Char → Bool
  | [], s => k s
  | _ :: _, [] => false
  | c :: l, c' :: s => c = c' && litK k l s

/-- Backtracking matcher: `matchK r s k` holds when some split `s = u ++ v`
has `u` matched by `r` and `k v` true. -/
def matchK : RE → List Char → (List Char → Bool) → Bool
  | .cls _, [], _ => false
  | .cls p, c :: r, k => p c && k r
  | .lit l, s, k => litK k l s
  | .seq a b, s, k => matchK a s (fun s' => matchK b s' k)
  | .alt a b, s, k => matchK a s k || matchK b s k
  | .opt a, s, k => k s || matchK a s k
  | .many0 p, s, k => starK p k s
  | .many1 p, s, k =>
    match s with
    | [] => false
    | c :: r => p c && starK p k r
  | .rep p mn mx, s, k => repExactK p (repUpToK p k (mx - mn)) mn s

/-- Full (anchored `^...$`) match. -/
def reFull (r : RE) (s : List Char) : Bool := matchK r s (fun s' => s'.isEmpty)

/-- `\d` (ASCII model). -/
def reDigit : Char → Bool := Char.isDigit

/-- `^\s*$` (empty / all whitespace). -/
def reEmpty : RE := .many0 isPyWs

/-- `^-?\d+$` (integer). -/
def reInt : RE := .seq (.opt (.cls (fun c => c = '-'))) (.many1 reDigit)

/-- `^-?\d+[.,]\d+(e[+-]?\d+)?$` (float / scientific). -/
def reFloat : RE :=
  .seq (.opt (.cls (fun c => c = '-')))
    (.seq (.many1 reDigit)
      (.seq (.cls (fun c => c = '.' ∨ c = ','))
        (.seq (.many1 reDigit)
          (.opt (.seq (.cls (fun c => c = 'e'))
            (.seq (.opt (.cls (fun c => c = '+' ∨ c = '-')))
              (.many1 reDigit)))))))

/-- `^(http|https)://[^\s/$.?#].[^\s]*$` (URL). -/
def reURL : RE :=
  .seq (.alt (.lit "http".data) (.lit "https".data))
    (.seq (.lit "://".data)
      (.seq (.cls (fun c =>
          ¬(isPyWs c ∨ c = '/' ∨ c = '$' ∨ c = '.' ∨ c = '?' ∨ c = '#')))
        (.seq (.cls (fun c => c ≠ '\n'))
          (.many0 (fun c => ¬ isPyWs c)))))

/-- `^[a-zA-Z0-9_.+-]+@[a-zA-Z0-9-]+\.[a-zA-Z0-9-.]+$` (email). -/
def reEmail : RE :=
  .seq (.many1 (fun c => c.isAlphanum ∨ c = '_' ∨ c = '.' ∨ c = '+' ∨ c = '-'))
    (.seq (.cls (fun c => c = '@'))
      (.seq (.many1 (fun c => c.isAlphanum ∨ c = '-'))
        (.seq (.cls (fun c => c = '.'))
          (.many1 (fun c => c.isAlphanum ∨ c = '-' ∨ c = '.')))))

/-- `^\d{4}-\d{2}-\d{2}([T ]\d{2}:\d{2}(:\d{2})?)?$` (ISO date / time). -/
def reISODate : RE :=
  .seq (.rep reDigit 4 4)
    (.seq (.cls (fun c => c = '-'))
      (.seq (.rep reDigit 2 2)
        (.seq (.cls (fun c => c = '-'))
          (.seq (.rep reDigit 2 2)
            (.opt (.seq (.cls (fun c => c = 'T' ∨ c = ' '))
              (.seq (.rep reDigit 2 2)
                (.seq (.cls (fun c => c = ':'))
                  (.seq (.rep reDigit 2 2)
                    (.opt (.seq (.cls (fun c => c = ':'))
                      (.rep reDigit 2 2))))))))))))

/-- Common date: one or two digits, a separator (slash or dash), one or two
digits, a separator, then two to four digits. -/
def reCommonDate : RE :=
  .seq (.rep reDigit 1 2)
    (.seq (.cls (fun c => c = '/' ∨ c = '-'))
      (.seq (.rep reDigit 1 2)
        (.seq (.cls (fun c => c = '/' ∨ c = '-'))
          (.rep reDigit 2 4))))

/-- `^[Nn]/?[Aa]$`. -/
def reNA : RE :=
  .seq (.cls (fun c => c = 'N' ∨ c = 'n'))
    (.seq (.opt (.cls (fun c => c = '/')))
      (.cls (fun c => c = 'A' ∨ c = 'a')))

/-- `^[A-Za-z0-9\s\-_]+$` (generic alphanumeric). -/
def reAlnum : RE :=
  .many1 (fun c => c.isAlphanum ∨ isPyWs c ∨ c = '-' ∨ c = '_')

/-- `TYPE_PATTERNS` of `DialectDetector`, in source order. -/
def typePatterns : List RE :=
  [reEmpty, reInt, reFloat, reURL, reEmail, reISODate, reCommonDate, reNA,
   reAlnum]

/-- A cell counts as "typed" when its stripped value matches one of the type
patterns (`any(regex.match(cell_val) ...)`). -/
def cellTyped (cell : String) : Bool :=
  typePatterns.any (fun r => reFull r (pyStrip cell).data)

/-! ### Exact rational arithmetic

Python computes the detector's scores in IEEE-754 `float`s.  The model uses
exact fractions: a numerator/denominator pair of integers, kept unnormalized
(every denominator built below is positive, so the cross-multiplication
comparisons agree with the real-number comparisons). -/

/-- An exact fraction (model of the Python `float` score values). -/
structure Frac where
  num : Int
  den : Int
deriving DecidableEq

/-- Embed a natural number. -/
def fOfNat (n : Nat) : Frac := ⟨n, 1⟩

/-- Multiplication. -/
def fmul (a b : Frac) : Frac := ⟨a.num * b.num, a.den * b.den⟩

/-- Addition. -/
def fadd (a b : Frac) : Frac := ⟨a.num * b.den + b.num * a.den, a.den * b.den⟩

/-- Reciprocal (sign moved to the numerator so denominators stay positive;
never applied to zero by the guarded code paths). -/
def finv (a : Frac) : Frac :=
  if a.num < 0 then ⟨-a.den, -a.num⟩ else ⟨a.den, a.num⟩

/-- Division. -/
def fdiv (a b : Frac) : Frac := fmul a (finv b)

/-- `a ≤ b` by cross multiplication (valid for positive denominators). -/
def fle (a b : Frac) : Bool := a.num * b.den ≤ b.num * a.den

/-- `a < b` by cross multiplication (valid for positive denominators). -/
def flt (a b : Frac) : Bool := a.num * b.den < b.num * a.den

/-- Python `max` on two scores. -/
def pymax (a b : Frac) : Frac := if fle a b then b else a

/-- Fraction equality as rational numbers (cross multiplication). -/
def feq (a b : Frac) : Bool := a.num * b.den == b.num * a.den

/-- Bit length with explicit fuel (structural, so it evaluates in the
kernel; the fuel 128 covers every value in this development). -/
def bitlenAux : Nat → Nat → Nat
  | 0, _ => 0
  | fuel + 1, n => if n = 0 then 0 else bitlenAux fuel (n / 2) + 1

/-- Bit length: `bitlen n = ⌊log₂ n⌋ + 1` for `1 ≤ n < 2 ^ 128`. -/
def bitlen (n : Nat) : Nat := bitlenAux 128 n

/-- Round `num / den` to the nearest integer, ties to even. -/
def roundHalfEven (num den : Nat) : Nat :=
  if 2 * (num % den) < den then num / den
  else if den < 2 * (num % den) then num / den + 1
  else if num / den % 2 = 0 then num / den else num / den + 1

/-- The exact value of `a / b` (`b ≥ 1`) correctly rounded to an IEEE-754
binary64 double: the significand is the half-even rounding of
`(a / b) · 2 ^ (52 - e)` with `2 ^ e ≤ a / b < 2 ^ (e + 1)`.  Valid in the
normal range, which covers every value the classifier computes.  Python's
true division of two `int`s returns exactly this value, and an IEEE
subtraction is this rounding applied to the exact difference. -/
def flDouble (a b : Nat) : Frac :=
  if a = 0 then ⟨0, 1⟩
  else
    let d : Int := (bitlen a : Int) - (bitlen b : Int)
    let ge : Bool := if 0 ≤ d then b * 2 ^ d.toNat ≤ a else b ≤ a * 2 ^ (-d).toNat
    let e : Int := if ge then d else d - 1
    let sh : Int := 52 - e
    if 0 ≤ sh then
      ⟨(roundHalfEven (a * 2 ^ sh.toNat) b : Int), ((2 : Int) ^ sh.toNat)⟩
    else
      ⟨((roundHalfEven a (b * 2 ^ (-sh).toNat) * 2 ^ (-sh).toNat : Nat) : Int), 1⟩

/-- Distinct values, first occurrence kept (size of a Python `set` /
key list of a `Counter`). -/
def dedupL {α : Type} [BEq α] (l : List α) : List α :=
  l.foldl (fun acc x => if acc.contains x then acc else acc ++ [x]) []

/-! ### Dialect detector -/

namespace DialectDetector

/-- `ALPHA = 1e-3`. -/
def ALPHA : Frac := ⟨1, 1000⟩

/-- `BETA = 1e-10`. -/
def BETA : Frac := ⟨1, 10000000000⟩

/-- `_get_potential_dialects`: delimiters × quote characters, in iteration
order. -/
def dialectCandidates : List (Char × Char) :=
  [(',', '"'), (',', '\''), (';', '"'), (';', '\''),
   ('\t', '"'), ('\t', '\''), ('|', '"'), ('|', '\'')]

/-- `_parse_sample`: strict parse of the sample; a `csv.Error` yields `[]`. -/
def parseSample (sample : String) (delim quote : Char) : List (List String) :=
  let res := pyCsvParse ⟨delim, quote⟩ true sample
  if res.2 then [] else res.1

/-- `_calculate_pattern_score`.  `none` models the `ZeroDivisionError` raised
by `numerator / length` when some row has zero cells; the caller's catch-all
`except` turns it into skipping the candidate. -/
def patternScoreOpt (rows : List (List String)) : Option Frac :=
  if rows = [] then some ⟨0, 1⟩
  else if rows.any (fun r => r.length = 0) then none
  else
    let lengths := rows.map List.length
    let distinct := dedupL lengths
    some (fmul (fdiv ⟨1, 1⟩ (fOfNat distinct.length))
      ((distinct.map (fun L =>
          fdiv (fmul (fOfNat (lengths.count L))
                     (pymax ALPHA ⟨(L : Int) - 1, 1⟩))
               (fOfNat L))).foldl fadd ⟨0, 1⟩))

/-- `_calculate_type_score`. -/
def typeScore (rows : List (List String)) : Frac :=
  let total := (rows.map List.length).sum
  if total = 0 then BETA
  else
    let matched := (rows.map (fun r => (r.filter cellTyped).length)).sum
    pymax BETA (fdiv (fOfNat matched) (fOfNat total))

/-- Consistency score `Q = P * T` of one candidate on a sample; `none` when
the candidate is skipped (no parseable rows, or an internal exception). -/
def candScore (sample : String) (delim quote : Char) : Option Frac :=
  let rows := parseSample sample delim quote
  if rows = [] then none
  else
    match patternScoreOpt rows with
    | none => none
    | some p => some (fmul p (typeScore rows))

/-- One iteration of the candidate loop in `detect`. -/
def detectStep (sample : String) (acc : Option Dialect × Frac)
    (cand : Char × Char) : Option Dialect × Frac :=
  match candScore sample cand.1 cand.2 with
  | none => acc
  | some q => if flt acc.2 q then (some ⟨cand.1, cand.2⟩, q) else acc

/-- `DialectDetector.detect` with the default `sample_size = 8192`: the
candidate with the strictly highest consistency score wins (ties keep the
earliest-iterated candidate); with no viable candidate the hard-coded
`excel` dialect (comma, double quote) is returned.  The Python fallback and
the candidate-level `except Exception: continue` are modelled by the
`Option` plumbing, so `detect` is a total function and never fails. -/
def detect (content : String) : Dialect :=
  let sample := strTake 8192 content
  let best := dialectCandidates.foldl (detectStep sample) (none, ⟨-1, 1⟩)
  match best.1 with
  | none => ⟨',', '"'⟩
  | some d => d

end DialectDetector

/-! ### Layout classifier (`_is_vertical_layout` in `csv_handler.py`) -/

/-- The sample the classifier reads: rows (and error flag) of a non-strict
parse of the first 4096 characters. -/
def layoutRowsErr (content : String) (d : Dialect) :
    List (List String) × Bool :=
  pyCsvParse d false (strTake 4096 content)

/-- The rows actually collected by the classifier's loop: the non-empty rows
among the first 20 rows of the sample (`if row:` keeps only non-empty rows). -/
def layoutSampled (content : String) (d : Dialect) : List (List String) :=
  (((layoutRowsErr content d).1).take 20).filter (fun r => !r.isEmpty)

/-- `avg_width = sum(row_lengths) / len(row_lengths)`: Python divides two
`int`s, producing the correctly rounded double. -/
def avgWidth (s : List (List String)) : Frac :=
  flDouble ((s.map List.length).sum) s.length

/-- `duplication_ratio = 1 - (len(unique_keys) / len(first_col_values))`,
computed as Python does in doubles: the quotient is rounded to a double
`x = m / 2 ^ k` with `0 ≤ m ≤ 2 ^ k`, and the IEEE subtraction `1 - x`
returns the exact difference `(2 ^ k - m) / 2 ^ k` correctly rounded. -/
def dupRate (s : List (List String)) : Frac :=
  let x := flDouble (dedupL (s.map (fun r => r.headD ""))).length s.length
  flDouble (x.den.toNat - x.num.toNat) x.den.toNat

/-- `_is_vertical_layout`: a `csv.Error` raised while reading the at most 20
sampled rows returns `False`; otherwise `False` with no collected rows, with
an average width above 2.5, or with a duplication rate at most the double
`0.3`, and `True` with a duplication rate above it.  Both thresholds compare
doubles: `2.5` is exactly representable, and `0.3` is the double
`flDouble 3 10`, which is strictly below `3/10` — so a duplication rate of
exactly `3/10` in the reals rounds to a double strictly above it and
classifies as vertical, as in Python. -/
def is_vertical_layout (content : String) (d : Dialect) : Bool :=
  if (layoutRowsErr content d).2 && ((layoutRowsErr content d).1.length < 20 : Bool)
  then false
  else
    let s := layoutSampled content d
    if s.isEmpty then false
    else if flt ⟨5, 2⟩ (avgWidth s) then false
    else flt (flDouble 3 10) (dupRate s)

/-! ### Vertical transposer (`transposer.py`) -/

/-- The body of the transposer loop for a non-empty row, with the trimmed
key and value already extracted: flush the current record when the first
field repeats with a value already present, evolve the schema, and assign. -/
def vstepNE (st : List String × List Rec × Rec) (key val : String) :
    List String × List Rec × Rec :=
  let flushed :=
    if st.1 ≠ [] ∧ key = st.1.headD "" ∧ recHasKey st.2.2 key
    then (st.2.1 ++ [st.2.2], ([] : Rec))
    else (st.2.1, st.2.2)
  (if st.1.contains key then st.1 else st.1 ++ [key],
   flushed.1, upsert flushed.2 key val)

/-- Per-row step of `parse_vertical_csv`: state is (fields, completed
records, current record); empty rows are skipped, the key is the trimmed
first cell and the value is the trimmed second cell (empty when absent). -/
def vstep (st : List String × List Rec × Rec) (row : List String) :
    List String × List Rec × Rec :=
  if row.isEmpty then st
  else
    vstepNE st (pyStrip (row.headD ""))
      (match row.get? 1 with
        | some v => pyStrip v
        | none => "")

/-- The loop of `parse_vertical_csv` on an already-tokenized row stream:
fold the rows, then append the pending record when non-empty. -/
def parse_vertical_rows (rows : List (List String)) : List Rec × List String :=
  let fin := rows.foldl vstep ([], [], [])
  (if fin.2.2.isEmpty then fin.2.1 else fin.2.1 ++ [fin.2.2], fin.1)

/-- `parse_vertical_csv` on source text: a structural `csv.Error` anywhere
aborts to `([], [])` (the whole loop sits in one `try` whose
`except csv.Error` returns empty results). -/
def parse_vertical_csv (content : String) (d : Dialect) :
    List Rec × List String :=
  if (pyCsvParse d false content).2 then ([], [])
  else parse_vertical_rows (pyCsvParse d false content).1

/-! ### Horizontal parser (the `csv.DictReader` path of `_parse_csv_sync`) -/

/-- The dictionary `csv.DictReader` builds for one data row: header fields
paired with the row's cells in order; fields beyond the row's length get
`None` (`restval`); extra cells go to the `None` rest key, which the handler
loop discards (`if field:`), so they are dropped here. -/
def mkDictRow (fns row : List String) : List (String × Option String) :=
  (List.zip fns row).map (fun p => (p.1, some p.2))
    ++ (fns.drop row.length).map (fun f => (f, none))

/-- The handler's inner loop: skip falsy field names, strip the field name,
replace a `None` value by `""` and sanitize it, and assign into the ordered
row dictionary. -/
def sanitizeRowStep (acc : Rec) (p : String × Option String) : Rec :=
  if p.1 = "" then acc
  else upsert acc (pyStrip p.1) (sanitize_cell_value (p.2.getD ""))

/-- One data row of the horizontal path, as an ordered record. -/
def sanitizeRow (d : List (String × Option String)) : Rec :=
  d.foldl sanitizeRowStep []

/-- The `for row in reader` loop: `DictReader` skips empty rows, and rows
whose sanitized record is empty are not appended. -/
def horizStep (fns : List String) (acc : List Rec) (row : List String) :
    List Rec :=
  if row.isEmpty then acc
  else
    let s := sanitizeRow (mkDictRow fns row)
    if s.isEmpty then acc else acc ++ [s]

/-- The horizontal path of `_parse_csv_sync` on an already-tokenized row
stream: the first row is the header (`reader.fieldnames`), the rest are data
rows.  A stream truncated by a structural error therefore yields exactly the
records of the rows before the error — partial results. -/
def parseHorizontalRows (rows : List (List String)) : List Rec × List String :=
  let fns := rows.headD []
  ((rows.drop 1).foldl (horizStep fns) [], fns)

/-- The horizontal path of `_parse_csv_sync` on source text: the `csv.Error`
handler keeps whatever was parsed before the error, so the error flag does
not change the result. -/
def parseHorizontalCsv (content : String) (d : Dialect) :
    List Rec × List String :=
  parseHorizontalRows (pyCsvParse d false content).1

/-! ### Ingestion pipeline (`_parse_csv_sync` / `process_csv_content`) -/

/-- `_parse_csv_sync`: empty content short-circuits; otherwise detect the
dialect, classify the layout, and delegate to the vertical transposer or the
horizontal parser. -/
def parse_csv_sync (content : String) : List Rec × List String :=
  if content = "" then ([], [])
  else if is_vertical_layout content (DialectDetector.detect content) then
    parse_vertical_csv content (DialectDetector.detect content)
  else parseHorizontalCsv content (DialectDetector.detect content)

/-- `process_csv_content`: the asynchronous entry point simply runs
`_parse_csv_sync` in a thread pool; the `id_field` argument is discarded
(`_ = id_field` in the source). -/
def process_csv_content (content : String) (idField : Option String) :
    List Rec × List String :=
  let _ := idField
  parse_csv_sync content

/-! ### Record grouper

The unit tests (`tests/unit/test_csv_handler_grouping.py`) import
`_group_records_by_id` from `app.services.csv_handler`, but no such function
exists in the sources; `process_csv_content` never groups.  The grouper is
therefore modelled from the specification. -/

/-- Replace the first list entry satisfying `p` by `g` of it. -/
def updateFirst (p : Rec → Bool) (g : Rec → Rec) : List Rec → List Rec
  | [] => []
  | r :: rest => if p r then g r :: rest else r :: updateFirst p g rest

/-- Merge an incoming record into its anchor: every field except the
identifier field is copied, but only when the incoming value is non-empty. -/
def mergeRecord (idKey : String) (anchor incoming : Rec) : Rec :=
  incoming.foldl
    (fun a kv => if kv.1 ≠ idKey ∧ kv.2 ≠ "" then upsert a kv.1 kv.2 else a)
    anchor

/-- Modelled from the spec: `_group_records_by_id`, the Record Grouper of
spec section 4.6, which is referenced by the repository's unit tests but
missing from the sources.  No-op without an `id_field` (or when it is blank
after trimming); otherwise records with an absent or empty identifier value
pass through, the first record with a given identifier value becomes the
anchor at its original position, and later records with the same value are
merged into the anchor with last-non-empty-wins semantics. -/
def groupRecordsById (records : List Rec) (idField : Option String) :
    List Rec :=
  match idField with
  | none => records
  | some s =>
    let f := pyStrip s
    if f = "" then records
    else
      records.foldl (fun out r =>
        let v := (recFind r f).getD ""
        if v = "" then out ++ [r]
        else if out.any (fun a => (recFind a f).getD "" == v) then
          updateFirst (fun a => (recFind a f).getD "" == v)
            (mergeRecord f · r) out
        else out ++ [r]) []

/-- Invariant of the transposer state: fields are stripped strings, every
key of the completed and pending records is a field, and nothing exists
before the first field is discovered. -/
def VInv (st : List String × List Rec × Rec) : Prop :=
  (∀ f ∈ st.1, pyStrip f = f) ∧
  (∀ r ∈ st.2.1, ∀ kv ∈ r, kv.1 ∈ st.1) ∧
  (∀ kv ∈ st.2.2, kv.1 ∈ st.1) ∧
  (st.1 = [] → st.2.1 = [] ∧ st.2.2 = [])

/-! ### Helper lemmas -/

/-- A candidate whose strictly parsed sample contains a zero-cell row is
skipped by the detector loop: the pattern score raises (models the
uncaught-then-caught `ZeroDivisionError`), and the catch-all `except`
leaves the accumulator unchanged. -/
theorem detectStep_skip (sample : String) (acc : Option Dialect × Frac)
    (cand : Char × Char)
    (h : [] ∈ DialectDetector.parseSample sample cand.1 cand.2) :
    DialectDetector.detectStep sample acc cand = acc := by
  have hne : DialectDetector.parseSample sample cand.1 cand.2 ≠ [] := by
    intro he
    rw [he] at h
    exact List.not_mem_nil _ h
  have hz : DialectDetector.patternScoreOpt
      (DialectDetector.parseSample sample cand.1 cand.2) = none := by
    unfold DialectDetector.patternScoreOpt
    rw [if_neg hne, if_pos]
    exact List.any_eq_true.mpr ⟨[], h, by decide⟩
  unfold DialectDetector.detectStep DialectDetector.candScore
  simp only [hz, if_neg hne]

/-- The head of a non-trivial `dropWhile` result fails the predicate. -/
theorem dropWhile_head_not {p : Char → Bool} :
    ∀ {l : List Char} {c t}, l.dropWhile p = c :: t → p c = false := by
  intro l
  induction l with
  | nil => intro c t h; simp at h
  | cons a l ih =>
    intro c t h
    by_cases hp : p a
    · rw [List.dropWhile_cons_of_pos hp] at h
      exact ih h
    · rw [List.dropWhile_cons_of_neg hp] at h
      injection h with h1 _
      subst h1
      simpa using hp

/-- A stripped character list is fixed by a further left trim. -/
theorem dropWhile_stripL (l : List Char) :
    (stripL l).dropWhile isPyWs = stripL l := by
  cases hc : stripL l with
  | nil => simp
  | cons c cs =>
    have hpre : stripL l <+: l.dropWhile isPyWs :=
      List.rdropWhile_prefix isPyWs (l.dropWhile isPyWs)
    obtain ⟨t, ht⟩ := hpre
    rw [hc] at ht
    have h' : l.dropWhile isPyWs = c :: (cs ++ t) := by
      rw [← ht, List.cons_append]
    have hcf : isPyWs c = false := dropWhile_head_not h'
    simp [List.dropWhile_cons, hcf]

/-- A stripped character list is fixed by a further right trim. -/
theorem rdrop_stripL (l : List Char) :
    List.rdropWhile isPyWs (stripL l) = stripL l :=
  List.rdropWhile_idempotent isPyWs (l.dropWhile isPyWs)

/-- Stripping is idempotent on character lists. -/
theorem stripL_idem (l : List Char) : stripL (stripL l) = stripL l := by
  show List.rdropWhile isPyWs ((stripL l).dropWhile isPyWs) = stripL l
  rw [dropWhile_stripL]
  exact rdrop_stripL l

/-- `str.strip()` is idempotent. -/
theorem pyStrip_idem (s : String) : pyStrip (pyStrip s) = pyStrip s := by
  show (⟨stripL (stripL s.data)⟩ : String) = ⟨stripL s.data⟩
  rw [stripL_idem]

/-- Prefixing a single quote to a stripped string leaves it stripped. -/
theorem stripL_quote (d : List Char) :
    stripL ('\'' :: stripL d) = '\'' :: stripL d := by
  obtain ⟨R, hR, hhead⟩ :
      ∃ R, stripL d = R.reverse ∧ ∀ c cs, R = c :: cs → isPyWs c = false :=
    ⟨List.dropWhile isPyWs ((d.dropWhile isPyWs).reverse), by simp [stripL],
     fun c cs h => dropWhile_head_not h⟩
  rw [hR]
  cases R with
  | nil => decide
  | cons c cs =>
    have hc := hhead c cs rfl
    show ((('\'' :: (c :: cs).reverse).dropWhile isPyWs).reverse.dropWhile
        isPyWs).reverse = _
    rw [show ('\'' :: (c :: cs).reverse).dropWhile isPyWs
          = '\'' :: (c :: cs).reverse from rfl]
    rw [List.reverse_cons, List.reverse_reverse, List.cons_append]
    rw [List.dropWhile_cons_of_neg (by simp [hc])]
    simp

/-- Closed form of the Cell Sanitizer: trim, then guard the first character. -/
theorem sanitize_closed_form (x : String) :
    sanitize_cell_value x =
      if startsGuard (pyStrip x) then "'" ++ pyStrip x else pyStrip x := by
  by_cases hx : x = ""
  · subst hx; decide
  · simp only [sanitize_cell_value, if_neg hx]

/-! ### Claim theorems -/

/-- C7: on the exact input
`"id,name,date\n1,Alice,2023-01-01\n2,Bob,2023-01-02"` the dialect detector
returns delimiter `,` and quote character `"`; that candidate's consistency
score `Q = P * T` equals `2`, and every one of the 8 candidates scores at
most `2` (the comma/single-quote candidate ties, and the tie keeps the
earliest-iterated candidate by the strict `>` in the loop). -/
theorem c7_dialect_detection_concrete :
    DialectDetector.detect "id,name,date\n1,Alice,2023-01-01\n2,Bob,2023-01-02"
        = ⟨',', '"'⟩ ∧
      (DialectDetector.candScore
          (strTake 8192 "id,name,date\n1,Alice,2023-01-01\n2,Bob,2023-01-02")
          ',' '"').map (feq ⟨2, 1⟩) = some true ∧
      DialectDetector.dialectCandidates.all (fun c =>
        fle ((DialectDetector.candScore
            (strTake 8192 "id,name,date\n1,Alice,2023-01-01\n2,Bob,2023-01-02")
            c.1 c.2).getD ⟨-1, 1⟩) ⟨2, 1⟩) = true := by
  decide

/-- C8: vertical transposition of the exact input
`"Name,John Doe\nAge,30\nCity,New York\nName,Jane Smith\nAge,25\nCity,London"`
under the comma/double-quote dialect yields exactly the two expected records,
the first mapping `Name` to `John Doe`, `Age` to `30` and `City` to
`New York`. -/
theorem c8_vertical_transposition_concrete :
    parse_vertical_csv
        "Name,John Doe\nAge,30\nCity,New York\nName,Jane Smith\nAge,25\nCity,London"
        ⟨',', '"'⟩ =
      ([[("Name", "John Doe"), ("Age", "30"), ("City", "New York")],
        [("Name", "Jane Smith"), ("Age", "25"), ("City", "London")]],
       ["Name", "Age", "City"]) := by
  decide

/-- C3 (code bug): the transposer neither skips a row whose first cell trims
to the empty string, nor sanitizes the second cell — it only strips it.  On
`"Name,=1+1\nAge,25"` (the failing input of
`test_transposer_sanitizes_values`) the record holds the raw `=1+1` even
though the Cell Sanitizer would return `'=1+1`; and on `"Name,John\n,Ignored"`
the empty key is kept as a field instead of the row being skipped. -/
theorem c3_transposer_row_handling_bug :
    parse_vertical_csv "Name,=1+1\nAge,25" ⟨',', '"'⟩ =
        ([[("Name", "=1+1"), ("Age", "25")]], ["Name", "Age"]) ∧
      sanitize_cell_value "=1+1" = "'=1+1" ∧
      (parse_vertical_csv "Name,John\n,Ignored" ⟨',', '"'⟩).2 = ["Name", ""] := by
  decide

/-- C1 (code bug): `process_csv_content` discards its `id_field` argument, so
on `"id,name\n1,Alice\n1,Alicia\n2,Bob"` with `id_field = "id"` it returns the
three parsed records unmerged, while the Record Grouper described by the
specification (and exercised by the repository's unit tests) would merge the
two records sharing `id = 1` into one, leaving two records. -/
theorem c1_process_csv_content_does_not_group :
    (process_csv_content "id,name\n1,Alice\n1,Alicia\n2,Bob" (some "id")).1 =
        [[("id", "1"), ("name", "Alice")],
         [("id", "1"), ("name", "Alicia")],
         [("id", "2"), ("name", "Bob")]] ∧
      (groupRecordsById
          (process_csv_content "id,name\n1,Alice\n1,Alicia\n2,Bob"
            (some "id")).1 (some "id")).length = 2 := by
  decide

/-- C2 counterexample: on `"a, b\n1,2"` the pipeline returns the field list
`["a", " b"]` (the raw header cells) but the record keys `"a"` and `"b"`
(the stripped header cells), so the record key `"b"` is not a member of the
returned field list. -/
theorem c2_key_not_in_fields_counterexample :
    (parse_csv_sync "a, b\n1,2").1 = [[("a", "1"), ("b", "2")]] ∧
      (parse_csv_sync "a, b\n1,2").2 = ["a", " b"] ∧
      ((parse_csv_sync "a, b\n1,2").1.all (fun r => r.all (fun kv =>
          (parse_csv_sync "a, b\n1,2").2.contains kv.1))) = false := by
  decide

/-- C6 counterexample: on `"A,1\nA,2\nA,3\nA,4\n\rx"` with the comma/double
quote dialect, the classifier samples four non-empty rows of width 2 (average
width `2 ≤ 2.5`) whose duplication rate `3/4` exceeds `0.3`, yet it returns
`false`, because the structural `csv.Error` raised by the bare carriage
return inside the first 20 sampled rows aborts the classification. -/
theorem c6_layout_classifier_counterexample :
    is_vertical_layout "A,1\nA,2\nA,3\nA,4\n\rx" ⟨',', '"'⟩ = false ∧
      layoutSampled "A,1\nA,2\nA,3\nA,4\n\rx" ⟨',', '"'⟩ =
        [["A", "1"], ["A", "2"], ["A", "3"], ["A", "4"]] ∧
      flt ⟨5, 2⟩ (avgWidth (layoutSampled "A,1\nA,2\nA,3\nA,4\n\rx" ⟨',', '"'⟩))
        = false ∧
      flt (flDouble 3 10)
          (dupRate (layoutSampled "A,1\nA,2\nA,3\nA,4\n\rx" ⟨',', '"'⟩))
        = true := by
  decide

/-- C4: a structural parse error raised mid-stream (the error flag of the
reader model) makes the vertical transposer discard everything and return
empty records and fields, while the horizontal parser's result is exactly the
one computed from the rows yielded before the error — partial results, with
no exception reaching the caller (the model functions are total). -/
theorem c4_parse_error_asymmetry (content : String) (d : Dialect)
    (h : (pyCsvParse d false content).2 = true) :
    parse_vertical_csv content d = ([], []) ∧
      parseHorizontalCsv content d =
        parseHorizontalRows (pyCsvParse d false content).1 := by
  refine ⟨?_, rfl⟩
  simp only [parse_vertical_csv, h, if_true]

/-- Witness for C4 at the concrete input `"a,b\n1,2\n\rx"`: the bare carriage
return raises after two rows; the horizontal path keeps the record parsed
before the error while the vertical path returns nothing. -/
theorem c4_parse_error_asymmetry_witness :
    (pyCsvParse ⟨',', '"'⟩ false "a,b\n1,2\n\rx").2 = true ∧
      parse_vertical_csv "a,b\n1,2\n\rx" ⟨',', '"'⟩ = ([], []) ∧
      (parseHorizontalCsv "a,b\n1,2\n\rx" ⟨',', '"'⟩).1 =
        [[("a", "1"), ("b", "2")]] :=
  ⟨by decide,
   (c4_parse_error_asymmetry "a,b\n1,2\n\rx" ⟨',', '"'⟩ (by decide)).1,
   by decide⟩

/-- C5: the Cell Sanitizer returns the trimmed input, prefixed with a single
quote exactly when the trimmed value is non-empty and starts with one of
`=`, `+`, `-`, `@`; empty input yields empty text (`pyStrip "" = ""`), and
the function is a total Lean function — no failure modes. -/
theorem c5_sanitizer_spec (x : String) :
    sanitize_cell_value x =
      if startsGuard (pyStrip x) then "'" ++ pyStrip x else pyStrip x :=
  sanitize_closed_form x

/-- C10: the pattern score divides by a row's cell count with no zero guard,
so any zero-cell row (a blank line in the sample) makes the score raise — in
the model, return `none` — and the catch-all handler excludes the candidate;
when every one of the 8 candidates parses to rows containing a zero-cell row,
the fold keeps its initial state and `detect` falls back to the default
comma/double-quote (`excel`) dialect.  `detect` is a total function, so no
exception can propagate. -/
theorem c10_pattern_score_divzero_default (content : String)
    (rows : List (List String)) (h0 : [] ∈ rows)
    (h : ∀ cand ∈ DialectDetector.dialectCandidates,
      [] ∈ DialectDetector.parseSample (strTake 8192 content) cand.1 cand.2) :
    DialectDetector.patternScoreOpt rows = none ∧
      DialectDetector.detect content = ⟨',', '"'⟩ := by
  constructor
  · have hne : rows ≠ [] := by
      intro he
      rw [he] at h0
      exact List.not_mem_nil _ h0
    unfold DialectDetector.patternScoreOpt
    rw [if_neg hne, if_pos]
    exact List.any_eq_true.mpr ⟨[], h0, by decide⟩
  · unfold DialectDetector.detect
    have e : List.foldl (DialectDetector.detectStep (strTake 8192 content))
        (none, ⟨-1, 1⟩) DialectDetector.dialectCandidates = (none, ⟨-1, 1⟩) := by
      simp only [DialectDetector.dialectCandidates, List.foldl_cons,
        List.foldl_nil]
      rw [detectStep_skip _ _ _ (h (',', '"') (by decide)),
        detectStep_skip _ _ _ (h (',', '\'') (by decide)),
        detectStep_skip _ _ _ (h (';', '"') (by decide)),
        detectStep_skip _ _ _ (h (';', '\'') (by decide)),
        detectStep_skip _ _ _ (h ('\t', '"') (by decide)),
        detectStep_skip _ _ _ (h ('\t', '\'') (by decide)),
        detectStep_skip _ _ _ (h ('|', '"') (by decide)),
        detectStep_skip _ _ _ (h ('|', '\'') (by decide))]
    simp only [e]

/-- Witness for C10 at the concrete input `"\n"`: the blank line parses to a
single zero-cell row under every candidate, so the default dialect is
returned. -/
theorem c10_pattern_score_divzero_default_witness :
    DialectDetector.patternScoreOpt [[]] = none ∧
      DialectDetector.detect "\n" = ⟨',', '"'⟩ :=
  c10_pattern_score_divzero_default "\n" [[]] (by decide) (by decide)

/-- C9: the Cell Sanitizer is idempotent — a second application changes
nothing: already-safe trimmed text is returned unchanged, and a value that
received the single-quote guard receives no second one (the guard character
is not itself guarded). -/
theorem c9_sanitize_idempotent (x : String) :
    sanitize_cell_value (sanitize_cell_value x) = sanitize_cell_value x := by
  rw [sanitize_closed_form x]
  by_cases hg : startsGuard (pyStrip x)
  · rw [if_pos hg, sanitize_closed_form ("'" ++ pyStrip x)]
    have hstrip : pyStrip ("'" ++ pyStrip x) = "'" ++ pyStrip x := by
      show (⟨stripL ('\'' :: stripL x.data)⟩ : String) = _
      rw [stripL_quote]
      rfl
    have hsg : startsGuard ("'" ++ pyStrip x) = false := rfl
    rw [hstrip, hsg]
    simp
  · rw [if_neg hg, sanitize_closed_form (pyStrip x), pyStrip_idem]
    rw [if_neg hg]

/-! ### The schema invariant (C2) -/

/-- Keys of an updated record are the written key or an old key. -/
theorem upsert_fst {r : Rec} {k v : String} :
    ∀ p ∈ upsert r k v, p.1 = k ∨ ∃ q ∈ r, p.1 = q.1 := by
  intro p hp
  unfold upsert at hp
  by_cases ha : r.any (fun q => q.1 == k)
  · rw [if_pos ha] at hp
    obtain ⟨q, hq, he⟩ := List.mem_map.mp hp
    by_cases hqk : (q.1 == k) = true
    · rw [if_pos hqk] at he
      exact .inl (by rw [← he])
    · rw [if_neg hqk] at he
      exact .inr ⟨q, hq, by rw [← he]⟩
  · rw [if_neg ha] at hp
    rcases List.mem_append.mp hp with h | h
    · exact .inr ⟨p, h, rfl⟩
    · exact .inl (by rw [List.mem_singleton.mp h])

/-- `vstepNE`, with its projections spelled out. -/
theorem vstepNE_eq (st : List String × List Rec × Rec) (key val : String) :
    vstepNE st key val =
      (if st.1.contains key then st.1 else st.1 ++ [key],
       (if st.1 ≠ [] ∧ key = st.1.headD "" ∧ recHasKey st.2.2 key
        then (st.2.1 ++ [st.2.2], ([] : Rec)) else (st.2.1, st.2.2)).1,
       upsert
         (if st.1 ≠ [] ∧ key = st.1.headD "" ∧ recHasKey st.2.2 key
          then (st.2.1 ++ [st.2.2], ([] : Rec)) else (st.2.1, st.2.2)).2
         key val) := rfl

/-- String list `contains` implies membership. -/
theorem mem_of_containsStr {l : List String} {a : String}
    (h : l.contains a) : a ∈ l := by
  obtain ⟨x, hx, hbeq⟩ := List.contains_iff_exists_mem_beq.mp h
  rw [show a = x from by simpa using hbeq]
  exact hx

/-- The transposer loop body preserves the invariant (the key handed to it
is always a stripped string). -/
theorem vstepNE_inv (st : List String × List Rec × Rec) (key val : String)
    (hkey : pyStrip key = key) (h : VInv st) : VInv (vstepNE st key val) := by
  obtain ⟨fields, records, current⟩ := st
  obtain ⟨h1, h2, h3, h4⟩ := h
  rw [vstepNE_eq]
  have hF1 : ∀ f ∈ (if fields.contains key then fields else fields ++ [key]),
      pyStrip f = f := by
    intro f hf
    by_cases hct : fields.contains key
    · rw [if_pos hct] at hf
      exact h1 f hf
    · rw [if_neg hct] at hf
      rcases List.mem_append.mp hf with hmem | hmem
      · exact h1 f hmem
      · rw [List.mem_singleton.mp hmem]
        exact hkey
  have hsub : ∀ x ∈ fields,
      x ∈ (if fields.contains key then fields else fields ++ [key]) := by
    intro x hx
    by_cases hct : fields.contains key
    · rw [if_pos hct]; exact hx
    · rw [if_neg hct]; exact List.mem_append_left _ hx
  have hkmem : key ∈ (if fields.contains key then fields else fields ++ [key]) := by
    by_cases hct : fields.contains key
    · rw [if_pos hct]
      exact mem_of_containsStr hct
    · rw [if_neg hct]
      exact List.mem_append_right _ (List.mem_singleton.mpr rfl)
  have hne : (if fields.contains key then fields else fields ++ [key]) ≠ [] :=
    List.ne_nil_of_mem hkmem
  by_cases hfl : fields ≠ [] ∧ key = fields.headD "" ∧ recHasKey current key
  · rw [if_pos hfl]
    refine ⟨hF1, ?_, ?_, fun habs => absurd habs hne⟩
    · intro r hr kv hkv
      rcases List.mem_append.mp hr with hmem | hmem
      · exact hsub _ (h2 r hmem kv hkv)
      · rw [List.mem_singleton.mp hmem] at hkv
        exact hsub _ (h3 kv hkv)
    · intro kv hkv
      rcases @upsert_fst [] key val kv hkv with hk | ⟨q, hq, _⟩
      · rw [hk]; exact hkmem
      · exact absurd hq (List.not_mem_nil q)
  · rw [if_neg hfl]
    refine ⟨hF1, ?_, ?_, fun habs => absurd habs hne⟩
    · intro r hr kv hkv
      exact hsub _ (h2 r hr kv hkv)
    · intro kv hkv
      rcases @upsert_fst current key val kv hkv with hk | ⟨q, hq, he⟩
      · rw [hk]; exact hkmem
      · rw [he]; exact hsub _ (h3 q hq)

/-- The per-row step preserves the invariant. -/
theorem vstep_inv (st : List String × List Rec × Rec) (row : List String)
    (h : VInv st) : VInv (vstep st row) := by
  unfold vstep
  by_cases hrow : row.isEmpty
  · rw [if_pos hrow]; exact h
  · rw [if_neg hrow]
    exact vstepNE_inv _ _ _ (pyStrip_idem _) h

/-- The whole fold preserves the invariant. -/
theorem foldl_vinv (rows : List (List String))
    (st : List String × List Rec × Rec) (h : VInv st) :
    VInv (rows.foldl vstep st) := by
  induction rows generalizing st with
  | nil => exact h
  | cons r rows ih => exact ih _ (vstep_inv st r h)

/-- The schema invariant for the vertical row loop. -/
theorem parse_vertical_rows_inv (rows : List (List String)) :
    ((parse_vertical_rows rows).2 = [] → (parse_vertical_rows rows).1 = []) ∧
    ∀ r ∈ (parse_vertical_rows rows).1, ∀ kv ∈ r,
      ∃ f ∈ (parse_vertical_rows rows).2, pyStrip f = kv.1 := by
  obtain ⟨h1, h2, h3, h4⟩ := foldl_vinv rows ([], [], [])
    ⟨by simp, by simp, by simp, fun _ => ⟨rfl, rfl⟩⟩
  constructor
  · intro hf
    obtain ⟨hr, hc⟩ := h4 hf
    show (if (rows.foldl vstep ([], [], [])).2.2.isEmpty then _ else _) = _
    rw [hc]
    simpa using hr
  · intro r hr kv hkv
    have hrmem : r ∈ (rows.foldl vstep ([], [], [])).2.1
        ∨ r = (rows.foldl vstep ([], [], [])).2.2 := by
      by_cases he : (rows.foldl vstep ([], [], [])).2.2.isEmpty
      · rw [show (parse_vertical_rows rows).1
            = (rows.foldl vstep ([], [], [])).2.1 from by
          simp only [parse_vertical_rows, if_pos he]] at hr
        exact .inl hr
      · rw [show (parse_vertical_rows rows).1
            = (rows.foldl vstep ([], [], [])).2.1
              ++ [(rows.foldl vstep ([], [], [])).2.2] from by
          simp only [parse_vertical_rows, if_neg he]] at hr
        rcases List.mem_append.mp hr with hmem | hmem
        · exact .inl hmem
        · exact .inr (List.mem_singleton.mp hmem)
    have hkf : kv.1 ∈ (rows.foldl vstep ([], [], [])).1 := by
      rcases hrmem with hmem | hmem
      · exact h2 r hmem kv hkv
      · exact h3 kv (hmem ▸ hkv)
    exact ⟨kv.1, hkf, h1 _ hkf⟩

/-- The schema invariant for the vertical transposer on source text. -/
theorem parse_vertical_inv (content : String) (d : Dialect) :
    ((parse_vertical_csv content d).2 = [] → (parse_vertical_csv content d).1 = []) ∧
    ∀ r ∈ (parse_vertical_csv content d).1, ∀ kv ∈ r,
      ∃ f ∈ (parse_vertical_csv content d).2, pyStrip f = kv.1 := by
  unfold parse_vertical_csv
  by_cases herr : (pyCsvParse d false content).2 = true
  · rw [if_pos herr]
    exact ⟨fun _ => rfl, by simp⟩
  · rw [if_neg herr]
    exact parse_vertical_rows_inv _

/-- Every key of a `DictReader` row dictionary is a header field. -/
theorem mkDictRow_fst (fns row : List String) :
    ∀ p ∈ mkDictRow fns row, p.1 ∈ fns := by
  intro p hp
  unfold mkDictRow at hp
  rcases List.mem_append.mp hp with h | h
  · obtain ⟨q, hq, he⟩ := List.mem_map.mp h
    rw [← he]
    exact (List.of_mem_zip hq).1
  · obtain ⟨f, hf, he⟩ := List.mem_map.mp h
    rw [← he]
    exact List.mem_of_mem_drop hf

/-- Keys produced by the sanitizing fold come from the accumulator or are
stripped non-empty field names of the dictionary. -/
theorem sanitizeRow_fold_keys :
    ∀ (d : List (String × Option String)) (acc : Rec) (kv : String × String),
      kv ∈ d.foldl sanitizeRowStep acc →
      (∃ p ∈ acc, kv.1 = p.1) ∨ ∃ p ∈ d, p.1 ≠ "" ∧ kv.1 = pyStrip p.1 := by
  intro d
  induction d with
  | nil => intro acc kv h; exact .inl ⟨kv, h, rfl⟩
  | cons a d ih =>
    intro acc kv h
    rw [List.foldl_cons] at h
    rcases ih _ kv h with ⟨p, hp, he⟩ | ⟨p, hp, hne, he⟩
    · by_cases ha : a.1 = ""
      · rw [show sanitizeRowStep acc a = acc from by
          simp only [sanitizeRowStep, if_pos ha]] at hp
        exact .inl ⟨p, hp, he⟩
      · rw [show sanitizeRowStep acc a
            = upsert acc (pyStrip a.1) (sanitize_cell_value (a.2.getD "")) from by
          simp only [sanitizeRowStep, if_neg ha]] at hp
        rcases @upsert_fst acc (pyStrip a.1) _ p hp with hk | ⟨q, hq, he2⟩
        · exact .inr ⟨a, List.mem_cons_self a d, ha, he.trans hk⟩
        · exact .inl ⟨q, hq, he.trans he2⟩
    · exact .inr ⟨p, List.mem_cons_of_mem a hp, hne, he⟩

/-- Every key of a sanitized row is the strip of a non-empty entry key. -/
theorem sanitizeRow_keys (d : List (String × Option String))
    (kv : String × String) (h : kv ∈ sanitizeRow d) :
    ∃ p ∈ d, p.1 ≠ "" ∧ kv.1 = pyStrip p.1 := by
  rcases sanitizeRow_fold_keys d [] kv h with ⟨p, hp, _⟩ | h'
  · exact absurd hp (List.not_mem_nil p)
  · exact h'

/-- Records accumulated by the horizontal fold are sanitized rows. -/
theorem horiz_foldl_mem (fns : List String) :
    ∀ (l : List (List String)) (acc : List Rec) (r : Rec),
      r ∈ l.foldl (horizStep fns) acc →
      r ∈ acc ∨ ∃ row, r = sanitizeRow (mkDictRow fns row) := by
  intro l
  induction l with
  | nil => intro acc r h; exact .inl h
  | cons a l ih =>
    intro acc r h
    rw [List.foldl_cons] at h
    rcases ih _ r h with h' | h'
    · by_cases ha : a.isEmpty
      · rw [show horizStep fns acc a = acc from by
          simp only [horizStep, if_pos ha]] at h'
        exact .inl h'
      · by_cases hs : (sanitizeRow (mkDictRow fns a)).isEmpty
        · rw [show horizStep fns acc a = acc from by
            simp only [horizStep, if_neg ha, if_pos hs]] at h'
          exact .inl h'
        · rw [show horizStep fns acc a = acc ++ [sanitizeRow (mkDictRow fns a)]
              from by simp only [horizStep, if_neg ha, if_neg hs]] at h'
          rcases List.mem_append.mp h' with h'' | h''
          · exact .inl h''
          · exact .inr ⟨a, List.mem_singleton.mp h''⟩
    · exact .inr h'

/-- With no header fields, a data row contributes nothing. -/
theorem horizStep_nil (acc : List Rec) (row : List String) :
    horizStep [] acc row = acc := by
  have hmk : mkDictRow [] row = [] := by
    simp [mkDictRow]
  unfold horizStep
  by_cases ha : row.isEmpty
  · rw [if_pos ha]
  · rw [if_neg ha, hmk]
    rfl

/-- With no header fields, the whole fold is the identity. -/
theorem foldl_horizStep_nil (l : List (List String)) (acc : List Rec) :
    l.foldl (horizStep []) acc = acc := by
  induction l generalizing acc with
  | nil => rfl
  | cons a l ih => rw [List.foldl_cons, horizStep_nil]; exact ih acc

/-- The schema invariant for the horizontal parser, with the amendment: the
record keys are the whitespace-trimmed header names. -/
theorem parse_horizontal_inv (rows : List (List String)) :
    ((parseHorizontalRows rows).2 = [] → (parseHorizontalRows rows).1 = []) ∧
    ∀ r ∈ (parseHorizontalRows rows).1, ∀ kv ∈ r,
      ∃ f ∈ (parseHorizontalRows rows).2, pyStrip f = kv.1 := by
  constructor
  · intro hf
    show (rows.drop 1).foldl (horizStep (rows.headD [])) [] = []
    rw [show rows.headD [] = [] from hf, foldl_horizStep_nil]
  · intro r hr kv hkv
    rcases horiz_foldl_mem (rows.headD []) (rows.drop 1) [] r hr with h | ⟨row, hrow⟩
    · exact absurd h (List.not_mem_nil r)
    · obtain ⟨p, hp, hne, he⟩ := sanitizeRow_keys _ kv (hrow ▸ hkv)
      exact ⟨p.1, mkDictRow_fst _ _ p hp, he.symm⟩

/-- The schema invariant (amended) for the whole pipeline. -/
theorem parse_csv_sync_inv (content : String) :
    ((parse_csv_sync content).2 = [] → (parse_csv_sync content).1 = []) ∧
    ∀ r ∈ (parse_csv_sync content).1, ∀ kv ∈ r,
      ∃ f ∈ (parse_csv_sync content).2, pyStrip f = kv.1 := by
  unfold parse_csv_sync
  by_cases hc : content = ""
  · rw [if_pos hc]
    exact ⟨fun _ => rfl, by simp⟩
  · rw [if_neg hc]
    by_cases hv : is_vertical_layout content (DialectDetector.detect content)
    · rw [if_pos hv]
      exact parse_vertical_inv content (DialectDetector.detect content)
    · rw [if_neg hv]
      exact parse_horizontal_inv (pyCsvParse (DialectDetector.detect content)
        false content).1

/-- C2 (amended): for every input, an empty field list forces an empty record
list, and every key of every returned record is the whitespace-trimmed form
of a member of the returned field list.  (The unamended claim — keys are
members of the field list itself — fails because the horizontal parser trims
header names in records but returns them untrimmed as the schema.) -/
theorem c2_fields_invariant_amended (content : String) :
    (!(parse_csv_sync content).2.isEmpty || (parse_csv_sync content).1.isEmpty)
        = true ∧
      (parse_csv_sync content).1.all (fun r => r.all (fun kv =>
        (parse_csv_sync content).2.any (fun f => pyStrip f == kv.1))) = true := by
  obtain ⟨hA, hB⟩ := parse_csv_sync_inv content
  constructor
  · by_cases h2 : (parse_csv_sync content).2 = []
    · simp [h2, hA h2]
    · simp [List.isEmpty_iff, h2]
  · rw [List.all_eq_true]
    intro r hr
    rw [List.all_eq_true]
    intro kv hkv
    obtain ⟨f, hf, he⟩ := hB r hr kv hkv
    rw [List.any_eq_true]
    exact ⟨f, hf, by simp [he]⟩

/-! ### The layout classifier equation (C6) -/

/-- C6 (amended): the layout classifier returns `false` when a structural
parse error is raised before 20 rows have been read; otherwise it samples
the non-empty rows among the first 20 rows of the first 4096 characters and
returns `false` when none were collected or when the average row width
exceeds 2.5, and otherwise returns `true` exactly when the duplication
ratio `1 - unique/total`, computed in IEEE-754 double arithmetic as the
program computes it, exceeds the double nearest 0.3.  The closing conjuncts
pin the binary64 boundary down: a sample of 10 rows with 7 unique
first-column values — exact ratio `3/10` — classifies as vertical, because
`1 - fl(7/10)` rounds to a double strictly above the double `0.3`. -/
theorem c6_layout_classifier_amended (content : String) (d : Dialect) :
    (is_vertical_layout content d =
      (!((layoutRowsErr content d).2
          && decide ((layoutRowsErr content d).1.length < 20))
        && !(layoutSampled content d).isEmpty
        && !flt ⟨5, 2⟩ (avgWidth (layoutSampled content d))
        && flt (flDouble 3 10) (dupRate (layoutSampled content d)))) ∧
      (layoutSampled "k,1\nk,2\nk,3\nk,4\na,5\nb,6\nc,7\nd,8\ne,9\nf,0"
          ⟨',', '"'⟩).length = 10 ∧
      (dedupL ((layoutSampled "k,1\nk,2\nk,3\nk,4\na,5\nb,6\nc,7\nd,8\ne,9\nf,0"
          ⟨',', '"'⟩).map (fun r => r.headD ""))).length = 7 ∧
      is_vertical_layout "k,1\nk,2\nk,3\nk,4\na,5\nb,6\nc,7\nd,8\ne,9\nf,0"
          ⟨',', '"'⟩ = true := by
  refine ⟨?_, by decide, by decide, by decide⟩
  simp only [is_vertical_layout]
  by_cases hEv : ((layoutRowsErr content d).2
      && decide ((layoutRowsErr content d).1.length < 20)) = true
  · rw [hEv]
    simp
  · rw [Bool.not_eq_true] at hEv
    rw [hEv]
    simp only [Bool.not_false, Bool.true_and, if_false, Bool.false_eq_true]
    by_cases hS : (layoutSampled content d).isEmpty = true
    · rw [hS]
      simp
    · rw [Bool.not_eq_true] at hS
      rw [hS]
      simp only [Bool.not_false, Bool.true_and, if_false, Bool.false_eq_true]
      by_cases hA : flt ⟨5, 2⟩ (avgWidth (layoutSampled content d)) = true
      · rw [hA]
        simp
      · rw [Bool.not_eq_true] at hA
        rw [hA]
        simp only [Bool.not_false, Bool.true_and, if_false, Bool.false_eq_true]
